import Mathlib

/-!
Verification development for the circuit-drawer label formatter
(`gate_label.py`, `gate_label_data.py`) and the classical Jacobian
dispatcher (`classical_jacobian.py`).

The Python code is shallowly embedded: numeric parameters are modelled as
rationals, Python dicts as association lists with last-write-wins lookup,
and the four external autodiff primitives as symbolic functions that record
which arguments a differentiation call targets together with the traced
primal value of the classical-preprocessing function.
-/

/-! ## Symbol tables (`gate_label_data.py`) -/

def non_parametric_qubit_labels : List (String × String) :=
  [("Hadamard", "H"), ("PauliX", "X"), ("PauliY", "Y"), ("PauliZ", "Z"),
   ("SX", "√X"), ("CZ", "Z"), ("CY", "Y")]

def parametric_qubit_labels : List (String × String) :=
  [("MultiRZ", "RZ"), ("PhaseShift", "Rϕ"), ("ControlledPhaseShift", "Rϕ"),
   ("CPhase", "Rϕ"), ("CRX", "RX"), ("CRY", "RY"), ("CRot", "Rot")]

def matrix_ops_labels : List (String × String) :=
  [("QubitUnitary", "U"), ("ControlledQubitUnitary", "U"),
   ("DiagonalQubitUnitary", "U")]

def arithmetic_ops_labels : List (String × String) :=
  [("QubitSum", "+")]

def cv_labels : List (String × String) :=
  [("Beamsplitter", "BS"), ("Squeezing", "S"), ("TwoModeSqueezing", "S"),
   ("Displacement", "D"), ("NumberOperator", "n"), ("Rotation", "R"),
   ("ControlledAddition", "X"), ("ControlledPhase", "Z"),
   ("ThermalState", "Thermal"), ("GaussianState", "Gaussian"),
   ("QuadraticPhase", "P"), ("CubicPhase", "V"), ("X", "x"), ("P", "p")]

def label_dicts_list : List (List (String × String)) :=
  [non_parametric_qubit_labels, parametric_qubit_labels, matrix_ops_labels,
   arithmetic_ops_labels, cv_labels]

/-- The merged dict built by `label_dict.update(d)` over `label_dicts_list`:
as an association list, entries of later tables come later, and lookup is
last-write-wins. -/
def label_dict : List (String × String) :=
  label_dicts_list.flatten

/-- Lookup in a Python dict built by sequential `update`: the last binding
for a key wins. -/
def dictGet (entries : List (String × String)) (k : String) : Option String :=
  (entries.reverse.find? (fun e => e.fst == k)).map (fun e => e.snd)

/-- First-binding-wins lookup; used to compare merge orders. -/
def dictGetFirst (entries : List (String × String)) (k : String) : Option String :=
  (entries.find? (fun e => e.fst == k)).map (fun e => e.snd)

/-! ## Python fixed-point formatting (`f"{p:.df}"`) on rationals -/

/-- Floor of a rational, computed by floor division of numerator by
denominator. -/
def ratFloor (q : ℚ) : ℤ :=
  Int.fdiv q.num (q.den : ℤ)

/-- Round to the nearest integer, ties to even — the rounding used by
Python fixed-point formatting. -/
def roundHalfEven (q : ℚ) : ℤ :=
  let f := ratFloor q
  let r := q - (f : ℚ)
  if r < 1/2 then f
  else if 1/2 < r then f + 1
  else if f % 2 = 0 then f else f + 1

/-- Left-pad a digit string with zeros up to width `d`. -/
def padLeftZeros (d : Nat) (s : String) : String :=
  if s.length < d then String.mk (List.replicate (d - s.length) '0') ++ s
  else s

/-- Python `f"{q:.df}"`: fixed-point rendering of `q` with exactly `d`
digits after the point (no point at all when `d = 0`). -/
def fmtFixed (d : Nat) (q : ℚ) : String :=
  let n := (roundHalfEven (q * (10 : ℚ) ^ d)).natAbs
  let sign := if q < 0 then "-" else ""
  if d = 0 then sign ++ toString n
  else sign ++ toString (n / 10 ^ d) ++ "." ++ padLeftZeros d (toString (n % 10 ^ d))

/-! ## Gate specs and `gate_label` (`gate_label.py`) -/

/-- A gate parameter: either a scalar number (shape `()`), or an array of
non-zero dimension (shape `d0 :: dims`, entries flattened). -/
inductive Param where
  | scalar (q : ℚ)
  | tensor (d0 : Nat) (dims : List Nat) (entries : List ℚ)
deriving DecidableEq

/-- Shape as computed by `qml.math.shape`: `[]` for a scalar, the dimension
list for an array. -/
def Param.shape : Param → List Nat
  | .scalar _ => []
  | .tensor d0 dims _ => d0 :: dims

/-- Formatting a parameter with `f"{p:.df}"`: defined for scalars; formatting
a non-zero-dimensional array raises `TypeError` in Python, modelled as
`none`. -/
def formatScalar? (d : Nat) : Param → Option String
  | .scalar q => some (fmtFixed d q)
  | .tensor _ _ _ => none

/-- The generator expression `(f"{p:.df}" for p in params)` materialised:
fails (Python raises) as soon as one parameter is not formattable. -/
def formatParams? (d : Nat) : List Param → Option (List String)
  | [] => some []
  | p :: ps =>
    match formatScalar? d p, formatParams? d ps with
    | some s, some ss => some (s :: ss)
    | _, _ => none

/-- The attributes of an operation that `gate_label` reads. -/
structure GateOp where
  base_name : String
  inverse : Bool
  parameters : List Param
deriving DecidableEq

/-- Embedding of `gate_label(op, include_parameters, decimal_places)`.
`none` models a
raised exception (formatting an array parameter on the multi-parameter
path). -/
def gate_label (op : GateOp) (include_parameters : Bool) (decimal_places : Nat) :
    Option String :=
  let base := (dictGet label_dict op.base_name).getD op.base_name
  let endStr := if op.inverse then "⁻¹" else ""
  if ¬ include_parameters then some (base ++ endStr)
  else
    match op.parameters with
    | [] => some (base ++ endStr)
    | [p] =>
      if (Param.shape p).length ≠ 0 then some (base ++ endStr)
      else (formatScalar? decimal_places p).map
        (fun s => base ++ "(" ++ s ++ ")" ++ endStr)
    | ps =>
      (formatParams? decimal_places ps).map
        (fun ss => base ++ "(" ++ String.intercalate (",") ss ++ ")" ++ endStr)

/-! ## Measurements and `measurement_label` -/

/-- The `ObservableReturnTypes` enum; `name` below is the Python enum
member name string. -/
inductive ObservableReturnTypes where
  | Sample
  | Variance
  | Expectation
  | Probability
  | State
deriving DecidableEq

def ObservableReturnTypes.name : ObservableReturnTypes → String
  | .Sample => "Sample"
  | .Variance => "Variance"
  | .Expectation => "Expectation"
  | .Probability => "Probability"
  | .State => "State"

/-- The observables `measurement_label` distinguishes: `qml.Projector`
(basis-state parameter, a sequence of integers), `qml.FockStateProjector`
(its `data[0]`), and any other observable carrying a display name. -/
inductive Obs where
  | Projector (state : List ℤ)
  | FockStateProjector (n : ℤ)
  | NamedObs (obsName : String)
deriving DecidableEq

/-- The `.name` attribute of the observable. -/
def Obs.name : Obs → String
  | .Projector _ => "Projector"
  | .FockStateProjector _ => "FockStateProjector"
  | .NamedObs s => s

/-- The attributes of a `MeasurementProcess` that `measurement_label`
reads. -/
structure MeasurementProcess where
  return_type : ObservableReturnTypes
  obs : Obs
deriving DecidableEq

/-- Embedding of `measurement_label(obs)`. The source lines after the
statement returning the generic symbol (the
generic symbolic-name resolution under `Expectation`) are unreachable and
therefore contribute nothing to the semantics. -/
def measurement_label (m : MeasurementProcess) : String :=
  if m.return_type = ObservableReturnTypes.Expectation then
    match m.obs with
    | .Projector state =>
      let state_str := String.join (state.map (fun i => toString i))
      "|" ++ state_str ++ "⟩⟨" ++ state_str ++ "|"
    | .FockStateProjector n => "|" ++ toString n ++ "⟩⟨" ++ toString n ++ "|"
    | .NamedObs _ => "⟨n⟩"
  else if m.return_type = ObservableReturnTypes.Variance then
    let name := (dictGet label_dict m.obs.name).getD m.obs.name
    "Var[" ++ name ++ "]"
  else
    m.return_type.name

/-! ## Classical Jacobian dispatcher (`classical_jacobian.py`)

The tape construction of the QNode and the four external autodiff engines are
collaborators outside the excerpt. `QNode.getParams` models
`qnode.construct(args, kwargs)` followed by
`qml.math.stack(qnode.qtape.get_parameters(trainable_only=...))` for an
arbitrary circuit. Each autodiff primitive is modelled symbolically as a
`DiffCall`: it records which argument indices the differentiation targets
and the traced primal value of the function it differentiates, which is
exactly the information the dispatch logic controls. -/

/-- The keyword arguments reaching the returned callable: the optional
`_trainable_only` entry and the remaining keyword arguments. -/
structure KwArgs where
  trainableOnly : Option Bool
  others : List (String × ℚ)
deriving DecidableEq

/-- Models a QNode: its declared interface and the parameter-extraction
collaborator (`construct` + `qtape.get_parameters(trainable_only)` +
`stack`), an arbitrary function of the positional arguments, the remaining
keyword arguments and the `trainable_only` flag. -/
structure QNode where
  interface : String
  getParams : List ℚ → List (String × ℚ) → Bool → List ℚ

/-- Embedding of `classical_preprocessing(*args, **kwargs)`: pops the
`_trainable_only` entry
(default `True`), constructs the tape with the remaining kwargs, and
returns the stacked gate parameters. -/
def classical_preprocessing (qnode : QNode) (args : List ℚ) (kwargs : KwArgs) :
    List ℚ :=
  let trainable_only := kwargs.trainableOnly.getD true
  qnode.getParams args kwargs.others trainable_only

/-- The `argnum` argument: a single index or a sequence of indices
(`np.isscalar` distinguishes the two). -/
inductive Argnum where
  | one (i : Nat)
  | many (l : List Nat)
deriving DecidableEq

/-- Which arguments a single differentiation call targets. -/
inductive ArgTarget where
  | allArgs
  | one (i : Nat)
  | many (l : List Nat)
deriving DecidableEq

/-- One call into an external differentiation primitive: the targeted
argument indices and the primal value of the traced function at the input
of the call. -/
structure DiffCall where
  target : ArgTarget
  value : List ℚ
deriving DecidableEq

/-- What a built Jacobian callable returns: a single differentiation
result, an ordered sequence of results, or a raised `IndexError` from
indexing `jac[i]` / `args[i]` out of range. -/
inductive JacOut where
  | arr (c : DiffCall)
  | tup (cs : List DiffCall)
  | indexError
deriving DecidableEq

/-- Model of `qml.jacobian(f, argnum)(*args, **kwargs)`: one reverse-mode pass,
targeting all trainable arguments when `argnum` is `None`, forwarding both
positional and keyword arguments to `f`. -/
def qml_jacobian (f : List ℚ → KwArgs → List ℚ) (argnum : Option Nat)
    (args : List ℚ) (kwargs : KwArgs) : DiffCall :=
  ⟨match argnum with
   | none => ArgTarget.allArgs
   | some i => ArgTarget.one i,
   f args kwargs⟩

/-- Model of `torch.autograd.functional.jacobian(f, inputs)`: evaluates
`f(*inputs)`
— positional arguments only, no keyword arguments — and yields a tuple
with one Jacobian per positional input. -/
def torch_jacobian (f : List ℚ → KwArgs → List ℚ) (args : List ℚ) :
    List DiffCall :=
  (List.range args.length).map (fun i => ⟨ArgTarget.one i, f args ⟨none, []⟩⟩)

/-- Model of `jax.jacobian(f, argnums)(*args, **kwargs)`: a single traced
differentiation call targeting the given index or index sequence. -/
def jax_jacobian (f : List ℚ → KwArgs → List ℚ) (argnums : Argnum)
    (args : List ℚ) (kwargs : KwArgs) : DiffCall :=
  ⟨match argnums with
   | .one i => ArgTarget.one i
   | .many l => ArgTarget.many l,
   f args kwargs⟩

/-- Embedding of `classical_jacobian(qnode, argnum)`: dispatch over the
declared
interface. Each branch returns `some` callable; falling through all four
checks returns `none`, modelling the Python function body ending without a
`return` (the caller receives `None`). -/
def classical_jacobian (qnode : QNode) (argnum : Option Argnum) :
    Option (List ℚ → KwArgs → JacOut) :=
  if qnode.interface = "autograd" then
    some (fun args kwargs =>
      match argnum with
      | none =>
        JacOut.arr (qml_jacobian (classical_preprocessing qnode) none args kwargs)
      | some (.one i) =>
        JacOut.arr (qml_jacobian (classical_preprocessing qnode) (some i) args kwargs)
      | some (.many l) =>
        JacOut.tup (l.map (fun i =>
          qml_jacobian (classical_preprocessing qnode) (some i) args kwargs)))
  else if qnode.interface = "torch" then
    some (fun args _kwargs =>
      let jac := torch_jacobian (classical_preprocessing qnode) args
      match argnum with
      | none => JacOut.tup jac
      | some (.one i) =>
        match jac.get? i with
        | some c => JacOut.arr c
        | none => JacOut.indexError
      | some (.many l) =>
        match l.mapM (fun i => jac.get? i) with
        | some cs => JacOut.tup cs
        | none => JacOut.indexError)
  else if qnode.interface = "jax" then
    let argnum2 := match argnum with
      | none => Argnum.one 0
      | some a => a
    some (fun args kwargs =>
      JacOut.arr (jax_jacobian (classical_preprocessing qnode) argnum2 args
        ⟨some false, kwargs.others⟩))
  else if qnode.interface = "tf" then
    some (fun args kwargs =>
      let subArgs : Option ArgTarget :=
        match argnum with
        | some (.one i) => if i < args.length then some (ArgTarget.one i) else none
        | none => some ArgTarget.allArgs
        | some (.many l) =>
          if l.all (fun i => i < args.length) then some (ArgTarget.many l) else none
      match subArgs with
      | some t => JacOut.arr ⟨t, classical_preprocessing qnode args kwargs⟩
      | none => JacOut.indexError)
  else
    none

/-- A qnode declaring an interface outside the four supported backends. -/
def numpyQNode : QNode :=
  ⟨"numpy", fun args _ _ => args⟩

/-- A concrete jax-interface qnode whose parameter extraction distinguishes
the trainable-only flag: the full parameter set is the arguments
themselves, the trainable subset is empty. -/
def jaxQNode : QNode :=
  ⟨"jax", fun args _ trainableOnly => if trainableOnly then [] else args⟩

/-- A concrete torch-interface qnode whose parameter extraction depends on
the keyword arguments and the trainable-only flag, so that forwarding
either would change the result. -/
def torchQNode : QNode :=
  ⟨"torch", fun args kws trainableOnly =>
    if trainableOnly then args ++ (kws.map (fun e => e.snd)) else args⟩

/-! ## Helper lemmas -/

theorem str_append_empty (s : String) : s ++ "" = s := by
  cases s with
  | mk data => show String.mk (data ++ []) = String.mk data; rw [List.append_nil]

theorem formatParams_scalars (d : Nat) (qs : List ℚ) :
    formatParams? d (qs.map Param.scalar) = some (qs.map (fmtFixed d)) := by
  induction qs with
  | nil => rfl
  | cons q qs ih => simp [formatParams?, formatScalar?, ih]

theorem find?_eq_some_unique {α : Type} (p : α → Bool) :
    ∀ (l : List α) (a : α), l.countP p ≤ 1 → a ∈ l → p a = true →
      l.find? p = some a := by
  intro l
  induction l with
  | nil => intro a _ ha _; cases ha
  | cons b t ih =>
    intro a hc ha hp
    cases hb : p b with
    | true =>
      have hfind : (b :: t).find? p = some b := by simp [List.find?, hb]
      rw [hfind]
      rcases List.mem_cons.mp ha with rfl | hat
      · rfl
      · exfalso
        have ht : t.countP p = 0 := by
          rw [List.countP_cons, hb, if_pos rfl] at hc
          omega
        have hnone := List.countP_eq_zero.mp ht a hat
        simp [hp] at hnone
    | false =>
      have hstep : (b :: t).find? p = t.find? p := by simp [List.find?, hb]
      rw [hstep]
      rcases List.mem_cons.mp ha with rfl | hat
      · rw [hp] at hb; cases hb
      · refine ih a ?_ hat hp
        simp only [List.countP_cons, hb] at hc
        simpa using hc

theorem countP_key_le_one : ∀ (l : List (String × String)) (k : String),
    (l.map Prod.fst).Nodup → l.countP (fun e => e.fst == k) ≤ 1 := by
  intro l k
  induction l with
  | nil => intro _; simp
  | cons b t ih =>
    intro hnd
    rw [List.map_cons, List.nodup_cons] at hnd
    simp only [List.countP_cons]
    cases hb : (b.fst == k) with
    | false => simpa using ih hnd.2
    | true =>
      have hk : b.fst = k := by simpa using hb
      have hz : t.countP (fun e => e.fst == k) = 0 := by
        apply List.countP_eq_zero.mpr
        intro e he hpe
        have hek : e.fst = k := by simpa using hpe
        have hmem : e.fst ∈ t.map Prod.fst := List.mem_map_of_mem Prod.fst he
        rw [hek, ← hk] at hmem
        exact hnd.1 hmem
      simp [hb, hz]

theorem find?_key_perm {l l2 : List (String × String)} (hperm : l.Perm l2)
    (hnd : (l.map Prod.fst).Nodup) (k : String) :
    l.find? (fun e => e.fst == k) = l2.find? (fun e => e.fst == k) := by
  cases h : l.find? (fun e => e.fst == k) with
  | none =>
    symm
    rw [List.find?_eq_none] at h ⊢
    intro x hx
    exact h x (hperm.mem_iff.mpr hx)
  | some a =>
    have hmem : a ∈ l := List.mem_of_find?_eq_some h
    have hpa := List.find?_some h
    symm
    apply find?_eq_some_unique
    · rw [← hperm.countP_eq]
      exact countP_key_le_one l k hnd
    · exact hperm.mem_iff.mp hmem
    · exact hpa

theorem label_dict_keys_nodup : (label_dict.map Prod.fst).Nodup := by decide

/-- Claim C2: for every measurement with return type Expectation whose
observable is neither a Projector nor a FockStateProjector,
`measurement_label` returns the fixed generic symbol "⟨n⟩"; the general
symbolic-name path resolving the display name of the observable is never
taken
(for PauliX it would have produced "⟨X⟩", not "⟨n⟩"). -/
theorem measurement_label_expectation_generic :
    (∀ obsName : String,
      measurement_label ⟨ObservableReturnTypes.Expectation, Obs.NamedObs obsName⟩ = "⟨n⟩")
    ∧ measurement_label ⟨ObservableReturnTypes.Expectation, Obs.NamedObs ("PauliX")⟩ ≠
        "⟨" ++ ((dictGet label_dict ("PauliX")).getD ("PauliX")) ++ "⟩" := by
  constructor
  · intro obsName
    rfl
  · decide

/-- Claim C4: for every gate spec with exactly one non-scalar
(non-zero-dimensional) parameter, `gate_label` output equals the output for
the same spec with no parameters, for every value of
`include_parameters`. -/
theorem gate_label_matrix_param_suppressed (nm : String) (inv incl : Bool)
    (d : Nat) (p : Param) (h : p.shape ≠ []) :
    gate_label ⟨nm, inv, [p]⟩ incl d = gate_label ⟨nm, inv, []⟩ incl d := by
  cases p with
  | scalar q => exact absurd rfl h
  | tensor d0 dims es => cases incl <;> rfl

/-- Witness for C4 at a concrete matrix parameter. -/
theorem gate_label_matrix_param_suppressed_witness :
    gate_label ⟨"QubitUnitary", false, [Param.tensor 2 [2] [1, 0, 0, 1]]⟩ true 2 =
      gate_label ⟨"QubitUnitary", false, []⟩ true 2 :=
  gate_label_matrix_param_suppressed ("QubitUnitary") false true 2
    (Param.tensor 2 [2] [1, 0, 0, 1]) (by decide)

/-- Claim C5: for every gate spec with exactly one scalar parameter and
include_parameters true, `gate_label` renders the parameter inside
parentheses after the resolved base name, fixed-point formatted to
`decimal_places` digits; concretely RX(1.23456) at 2 decimals gives
"RX(1.23)". -/
theorem gate_label_single_scalar :
    (∀ (nm : String) (inv : Bool) (q : ℚ) (d : Nat),
      gate_label ⟨nm, inv, [Param.scalar q]⟩ true d =
        some (((dictGet label_dict nm).getD nm) ++ "(" ++ fmtFixed d q ++ ")" ++
          (if inv then "⁻¹" else "")))
    ∧ gate_label ⟨"RX", false, [Param.scalar 1.23456]⟩ true 2 = some ("RX(1.23)") := by
  constructor
  · intro nm inv q d
    rfl
  · with_unfolding_all decide

/-- Claim C7: for every gate base name absent from the merged symbol table,
`gate_label` uses the base name verbatim (identity fallback) and returns it
unchanged plus the inverse suffix when applicable, without raising. -/
theorem gate_label_unknown_name (nm : String) (h : dictGet label_dict nm = none)
    (inv incl : Bool) (d : Nat) (ps : List Param) :
    gate_label ⟨nm, inv, ps⟩ false d = some (nm ++ (if inv then "⁻¹" else ""))
    ∧ gate_label ⟨nm, inv, []⟩ incl d = some (nm ++ (if inv then "⁻¹" else "")) := by
  constructor
  · simp [gate_label, h]
  · cases incl <;> simp [gate_label, h]

/-- Witness for C7 at the unknown name "FooGate". -/
theorem gate_label_unknown_name_witness :
    gate_label ⟨"FooGate", true, [Param.scalar 1]⟩ false 2 =
        some ("FooGate" ++ "⁻¹")
    ∧ gate_label ⟨"FooGate", true, []⟩ true 2 = some ("FooGate" ++ "⁻¹") :=
  gate_label_unknown_name ("FooGate") (by decide) true true 2 [Param.scalar 1]

/-- Claim C3: for every gate spec with two or more (scalar) parameters and
include_parameters true, `gate_label` renders all parameters as a
comma-joined fixed-point list inside parentheses, each to `decimal_places`
digits; concretely Rot(1.1111, 2.2222, 3.3333) at 2 decimals gives
"Rot(1.11,2.22,3.33)". No matrix-suppression check applies on this path:
with two array parameters the code attempts to format them (raising),
rather than falling back to the parameterless label. -/
theorem gate_label_multi_params :
    (∀ (nm : String) (inv : Bool) (q1 q2 : ℚ) (qs : List ℚ) (d : Nat),
      gate_label ⟨nm, inv, (q1 :: q2 :: qs).map Param.scalar⟩ true d =
        some (((dictGet label_dict nm).getD nm) ++ "(" ++
          String.intercalate (",") ((q1 :: q2 :: qs).map (fmtFixed d)) ++ ")" ++
          (if inv then "⁻¹" else "")))
    ∧ gate_label ⟨"Rot", false, [Param.scalar 1.1111, Param.scalar 2.2222,
        Param.scalar 3.3333]⟩ true 2 = some ("Rot(1.11,2.22,3.33)")
    ∧ gate_label ⟨"QubitUnitary", false, [Param.tensor 2 [2] [1, 0, 0, 1],
        Param.tensor 2 [2] [1, 0, 0, 1]]⟩ true 2 = none := by
  refine ⟨?_, ?_, ?_⟩
  · intro nm inv q1 q2 qs d
    show (formatParams? d ((q1 :: q2 :: qs).map Param.scalar)).map _ = _
    rw [formatParams_scalars]
    rfl
  · with_unfolding_all decide
  · rfl

/-- Claim C6: `gate_label` appends the inverse marker "⁻¹" exactly when the
inverse flag of the spec is set, after any parameter text: the label always
equals the label of the same spec with the flag cleared, followed by the
suffix; concretely "RX(1.23)⁻¹". -/
theorem gate_label_inverse_suffix :
    (∀ (op : GateOp) (incl : Bool) (d : Nat),
      gate_label op incl d =
        (gate_label ⟨op.base_name, false, op.parameters⟩ incl d).map
          (fun s => s ++ (if op.inverse then "⁻¹" else "")))
    ∧ gate_label ⟨"RX", true, [Param.scalar 1.23456]⟩ true 2 =
        some ("RX(1.23)⁻¹") := by
  constructor
  · rintro ⟨nm, inv, ps⟩ incl d
    cases inv with
    | false =>
      cases h : gate_label ⟨nm, false, ps⟩ incl d with
      | none => simp [h]
      | some s => simp [h, str_append_empty]
    | true =>
      cases incl with
      | false => simp [gate_label, str_append_empty]
      | true =>
        match ps with
        | [] => simp [gate_label, str_append_empty]
        | [p] =>
          cases p with
          | scalar q => simp [gate_label, str_append_empty, Param.shape, formatScalar?]
          | tensor d0 dims es => simp [gate_label, str_append_empty, Param.shape]
        | p1 :: p2 :: ps2 =>
          cases h : formatParams? d (p1 :: p2 :: ps2) with
          | none => simp [gate_label, h]
          | some ss => simp [gate_label, h, str_append_empty]
  · with_unfolding_all rfl

/-- Claim C8: the key sets of the five source symbol tables are pairwise
disjoint, so the merged `label_dict` built by sequential last-wins update
equals the plain union of the five tables (first-wins lookup agrees with
last-wins lookup) and its lookup function is unchanged under any
reordering of the merged entries. -/
theorem label_dict_merge_order_independent :
    List.Pairwise (fun d1 d2 => ∀ a ∈ d1.map Prod.fst, a ∉ d2.map Prod.fst)
      label_dicts_list
    ∧ (∀ k, dictGet label_dict k = dictGetFirst label_dict k)
    ∧ (∀ l, label_dict.Perm l → ∀ k, dictGet l k = dictGet label_dict k) := by
  refine ⟨by decide, ?_, ?_⟩
  · intro k
    unfold dictGet dictGetFirst
    rw [find?_key_perm (List.reverse_perm label_dict) (by
      rw [List.map_reverse]
      exact List.nodup_reverse.mpr label_dict_keys_nodup) k]
  · intro l hperm k
    unfold dictGet
    have hp2 : l.reverse.Perm label_dict.reverse :=
      (List.reverse_perm l).trans (hperm.symm.trans
        (List.reverse_perm label_dict).symm)
    have hn2 : (l.reverse.map Prod.fst).Nodup := by
      rw [List.map_reverse]
      exact List.nodup_reverse.mpr ((hperm.map Prod.fst).nodup_iff.mp
        label_dict_keys_nodup)
    rw [find?_key_perm hp2 hn2 k]

/-- Witness for C8: looking up "CZ" in a reversal of the merged table gives
the same result as in the merged table itself. -/
theorem label_dict_merge_order_independent_witness :
    dictGet label_dict.reverse ("CZ") = dictGet label_dict ("CZ") :=
  label_dict_merge_order_independent.2.2 label_dict.reverse
    (List.reverse_perm label_dict).symm ("CZ")

/-- Claim C1 (code behavior at the failing input): for every qnode whose
declared interface is none of "autograd", "torch", "jax", "tf",
`classical_jacobian` falls through all four interface checks and returns
`none` (Python `None`) — no callable and no explicit "unsupported backend"
failure is produced. -/
theorem classical_jacobian_unsupported_returns_none (q : QNode)
    (argnum : Option Argnum)
    (h1 : q.interface ≠ "autograd") (h2 : q.interface ≠ "torch")
    (h3 : q.interface ≠ "jax") (h4 : q.interface ≠ "tf") :
    classical_jacobian q argnum = none := by
  simp [classical_jacobian, h1, h2, h3, h4]

/-- Witness for C1: a qnode with interface "numpy" yields no callable. -/
theorem classical_jacobian_unsupported_returns_none_witness :
    classical_jacobian numpyQNode none = none :=
  classical_jacobian_unsupported_returns_none numpyQNode none
    (by decide) (by decide) (by decide) (by decide)

/-- Claim C9: for a jax-interface qnode, the returned callable always
disables the trainable-subset restriction — the classical preprocessing is
evaluated with `trainable_only = False` regardless of the incoming
`_trainable_only` keyword — and performs a single differentiation call
targeting argument index 0 when `argnum` is unset, or the given
index/index sequence otherwise. -/
theorem classical_jacobian_jax_full_params (q : QNode) (h : q.interface = "jax")
    (argnum : Option Argnum) (args : List ℚ) (kwargs : KwArgs) :
    (classical_jacobian q argnum).map (fun f => f args kwargs) =
      some (JacOut.arr ⟨(match argnum with
        | none => ArgTarget.one 0
        | some (.one i) => ArgTarget.one i
        | some (.many l) => ArgTarget.many l),
        q.getParams args kwargs.others false⟩) := by
  obtain ⟨intf, gp⟩ := q
  simp only at h
  subst h
  cases argnum with
  | none => rfl
  | some a => cases a <;> rfl

/-- Witness for C9: a jax qnode whose trainable parameter subset is empty
but whose full parameter set equals the arguments; even with
`_trainable_only=True` passed, the full set is differentiated, with respect
to argument index 0. -/
theorem classical_jacobian_jax_full_params_witness :
    (classical_jacobian jaxQNode none).map
        (fun f => f [1, 2] ⟨some true, []⟩) =
      some (JacOut.arr ⟨ArgTarget.one 0, [1, 2]⟩) :=
  classical_jacobian_jax_full_params jaxQNode rfl none [1, 2] ⟨some true, []⟩

/-- Claim C10: for a torch-interface qnode, the callable returned by
`classical_jacobian` discards all keyword arguments: for any two keyword
argument dicts (including ones setting `_trainable_only`) and identical
positional arguments, the result is identical. -/
theorem classical_jacobian_torch_ignores_kwargs (q : QNode)
    (h : q.interface = "torch") (argnum : Option Argnum)
    (args : List ℚ) (kw1 kw2 : KwArgs) :
    (classical_jacobian q argnum).map (fun f => f args kw1) =
      (classical_jacobian q argnum).map (fun f => f args kw2) := by
  obtain ⟨intf, gp⟩ := q
  simp only at h
  subst h
  rfl

/-- Witness for C10: a torch qnode whose parameter extraction would depend
on both the keyword arguments and the trainable-only flag; two different
keyword dicts — one clearing `_trainable_only`, one empty — give the same
result. -/
theorem classical_jacobian_torch_ignores_kwargs_witness :
    (classical_jacobian torchQNode (some (Argnum.one 0))).map
        (fun f => f [1, 2] ⟨some false, [("shots", 5)]⟩) =
      (classical_jacobian torchQNode (some (Argnum.one 0))).map
        (fun f => f [1, 2] ⟨none, []⟩) :=
  classical_jacobian_torch_ignores_kwargs torchQNode rfl (some (Argnum.one 0))
    [1, 2] ⟨some false, [("shots", 5)]⟩ ⟨none, []⟩
